import Mathlib

/-!
A shallow embedding of the NScript pipeline of `source/nscript.cpp`
(nds-console): tokenizer, recursive-descent parser and tree-walking
evaluator over a mutable ordered name/value environment, together with
theorems checking the natural-language specification against it.

Pieces declared only in `nscript.h` (which is not part of the sources:
character classes, the grammar wiring of `expectExpression`, the parse
driver, `Node::kindToString`, `cutTrailingZeros`, `escapeChar`) are
modelled from the specification and marked as such in their doc
comments.  Everything else is translated from `source/nscript.cpp`.
-/

namespace NScript

/-- A half-open span (start offset, end offset) into the source text. -/
structure Position where
  startPos : Nat
  endPos : Nat
deriving DecidableEq, Repr

/-- A uniform error value: an ordered sequence of message fragments
(concatenated for display) plus a `Position`. -/
structure Error where
  msgs : List String
  pos : Position
deriving DecidableEq, Repr

/-- The node/token kinds of `NScript::NodeKind`. -/
inductive NodeKind where
  | Num | String | Bin | Una | Assign | Call
  | Plus | Minus | Star | Slash | LPar | RPar | Comma | Eq
  | Bad | None | Identifier | Eof
deriving DecidableEq, Repr

/-- The `float64` payload of a `Num` node.  The source stores an IEEE
64-bit float; every numeral and operation in the analysed programs is
exact, and we model the value as an exact fraction, kept unreduced so
that all operations are kernel-computable.  `den` is nonzero for every
value the analysed code produces. -/
structure Float64 where
  num : Int
  den : Int
deriving DecidableEq, Repr

/-- The rational number a `Float64` payload denotes. -/
def Float64.toRat (a : Float64) : ℚ := (a.num : ℚ) / (a.den : ℚ)

/-- `l + r` of `evaluateOperationNum`.  The source adds IEEE binary64
doubles, which round; this model keeps the exact value, which agrees
with the double computation whenever operands and result are exactly
representable (as in every program analysed in this file), but does not
carry the rounding itself. -/
def Float64.add (a b : Float64) : Float64 :=
  ⟨a.num * b.den + b.num * a.den, a.den * b.den⟩

/-- `l - r` of `evaluateOperationNum`; exact-value model of the
rounding double subtraction (see `Float64.add`). -/
def Float64.sub (a b : Float64) : Float64 :=
  ⟨a.num * b.den - b.num * a.den, a.den * b.den⟩

/-- `l * r` of `evaluateOperationNum`; exact-value model of the
rounding double multiplication (see `Float64.add`). -/
def Float64.mul (a b : Float64) : Float64 :=
  ⟨a.num * b.num, a.den * b.den⟩

/-- `l / r` of `evaluateOperationNum`, reached only under the nonzero
guard; exact-value model of the rounding double division (see
`Float64.add`). -/
def Float64.div (a b : Float64) : Float64 :=
  ⟨a.num * b.den, a.den * b.num⟩

/-- The `r == 0` comparison of `evaluateOperationNum`: a fraction with
nonzero denominator is zero exactly when its numerator is. -/
def Float64.isZero (a : Float64) : Bool := a.num = 0

/-- A whole number as a number payload. -/
def Float64.ofNat (n : Nat) : Float64 := ⟨(n : Int), 1⟩

/-- `uint64_t(double)` as used by `builtinFloor`: truncation toward
zero, exact for values in `[0, 2^64)` (outside that range the source
conversion is undefined behaviour; we extend it totally). -/
def Float64.toUInt64Trunc (a : Float64) : Float64 :=
  ⟨(((Int.tdiv a.num a.den).toNat % 2 ^ 64 : Nat) : Int), 1⟩

/-- The single AST/value type `NScript::Node`: a tagged union (kind,
payload, position).  One constructor per payload shape; `punct` covers
the single-character punctuation kinds, whose payload is their text. -/
inductive Node where
  | num (value : Float64) (pos : Position)
  | str (value : String) (pos : Position)
  | bin (left right : Node) (op : Node) (pos : Position)
  | una (term : Node) (op : Node) (pos : Position)
  | assign (name expr : Node) (pos : Position)
  | call (name : Node) (args : List Node) (pos : Position)
  | identifier (value : String) (pos : Position)
  | noneV (pos : Position)
  | punct (kind : NodeKind) (value : String) (pos : Position)
  | eofT (pos : Position)
  | bad (pos : Position)
deriving Repr

/-- The `kind` tag of a node. -/
def Node.kind : Node → NodeKind
  | .num .. => .Num
  | .str .. => .String
  | .bin .. => .Bin
  | .una .. => .Una
  | .assign .. => .Assign
  | .call .. => .Call
  | .identifier .. => .Identifier
  | .noneV _ => .None
  | .punct k _ _ => k
  | .eofT _ => .Eof
  | .bad _ => .Bad

/-- The `pos` field of a node. -/
def Node.pos : Node → Position
  | .num _ p => p
  | .str _ p => p
  | .bin _ _ _ p => p
  | .una _ _ p => p
  | .assign _ _ p => p
  | .call _ _ p => p
  | .identifier _ p => p
  | .noneV p => p
  | .punct _ _ p => p
  | .eofT p => p
  | .bad p => p

/-- The `value.str` payload of a node (`Identifier`, `String`,
punctuation and the `none` keyword token, whose payload is its text).
Reading the union member on other kinds is undefined in the source and
unreachable in the analysed paths; we return `""` there. -/
def Node.strValue : Node → String
  | .str s _ => s
  | .identifier s _ => s
  | .punct _ s _ => s
  | .noneV _ => "none"
  | _ => ""

/-- `Node::none(pos)`: the `None` value the evaluator produces.
Modelled from the spec: the helper is declared in `nscript.h`. -/
def Node.noneNode (pos : Position) : Node := Node.noneV pos

/-- The quote character `'` (code 39). -/
def quoteChar : Char := Char.ofNat 39

/-- The backslash character (code 92). -/
def backslashChar : Char := Char.ofNat 92

/-- Modelled from the spec: `Node::kindToString` is declared in
`nscript.h`; only the display name of a kind, used inside error
messages. -/
def kindToString : NodeKind → String
  | .Num => "num"
  | .String => "string"
  | .Bin => "bin"
  | .Una => "una"
  | .Assign => "assign"
  | .Call => "call"
  | .Plus => "+"
  | .Minus => "-"
  | .Star => "*"
  | .Slash => "/"
  | .LPar => "("
  | .RPar => ")"
  | .Comma => ","
  | .Eq => "="
  | .Bad => "bad"
  | .None => "none"
  | .Identifier => "identifier"
  | .Eof => "eof"

/-- Modelled from the spec: `cutTrailingZeros(std::to_string(num))` is
declared in `nscript.h`; §8 only requires a numerically equivalent
canonical rendering with trailing zeros removed.  We render the exact
fraction. -/
def numToString (a : Float64) : String :=
  if a.den = 1 then toString a.num
  else toString a.num ++ "/" ++ toString a.den

/-- Modelled from the spec: the escapes→source transform used when
rendering a string literal back to source form (`escapedToEscapes` is
declared in `nscript.h`); minimal set newline/tab/backslash/quote. -/
def escapeToSeq (c : Char) : String :=
  if c = Char.ofNat 10 then String.mk [backslashChar, 'n']
  else if c = Char.ofNat 9 then String.mk [backslashChar, 't']
  else if c = backslashChar then String.mk [backslashChar, backslashChar]
  else if c = quoteChar then String.mk [backslashChar, quoteChar]
  else String.mk [c]

/-- See `escapeToSeq`. -/
def escapedToEscapes (s : String) : String :=
  String.join (s.data.map escapeToSeq)

mutual
/-- `Node::toString`: the source-text rendering of a node. -/
def Node.toString : Node → String
  | .num v _ => numToString v
  | .str s _ => String.mk [quoteChar] ++ escapedToEscapes s ++ String.mk [quoteChar]
  | .bin l r op _ => l.toString ++ " " ++ op.toString ++ " " ++ r.toString
  | .una t op _ => op.toString ++ t.toString
  | .assign n e _ => n.toString ++ " = " ++ e.toString
  | .call n args _ => n.toString ++ "(" ++ Node.argsToString args ++ ")"
  | .identifier s _ => s
  | .noneV _ => "none"
  | .punct _ s _ => s
  | .eofT _ => "<eof>"
  | .bad _ => ""

/-- The argument list rendering of `Node::toString` for `Call` nodes:
`", "` before every argument after the first. -/
def Node.argsToString : List Node → String
  | [] => ""
  | [a] => a.toString
  | a :: b :: rest => a.toString ++ ", " ++ Node.argsToString (b :: rest)
end

/-! ## Lexer -/

/-- Modelled from the spec: identifier-start (letter or underscore) and
identifier-continuation (letter, digit or underscore) classification;
`isIdentifierChar` is declared in `nscript.h`. -/
def isIdentifierChar (c : Char) (isFirst : Bool) : Bool :=
  c.isAlpha || c = '_' || (!isFirst && c.isDigit)

/-- Modelled from the spec: a numeric token starts with a digit and
continues while digit-or-dot; `isNumChar` is declared in `nscript.h`. -/
def isNumChar (c : Char) (isFirst : Bool) : Bool :=
  c.isDigit || (!isFirst && c = '.')

/-- Modelled from the spec: whitespace skipping before each token
(`eatWhitespaces` is declared in `nscript.h`). -/
def eatWhitespaces (expr : List Char) (i : Nat) : Nat :=
  i + ((expr.drop i).takeWhile (fun c => c.isWhitespace)).length

/-- Modelled from the spec: `curPos()` — the one-character span at the
cursor (`nscript.h`). -/
def curPos (i : Nat) : Position := ⟨i, i + 1⟩

/-- The loop of `Parser::collectSequence`: starting at `i`, collect
characters while the checker matches (the checker may look behind the
cursor, as the string checker does).  Fuel-indexed by the remaining
length; returns the collected characters and the cursor after the
loop. -/
def collectSeqGo (expr : List Char) (checker : List Char → Nat → Bool) :
    Nat → Nat → List Char × Nat
  | 0, i => ([], i)
  | fuel + 1, i =>
    if h : i < expr.length then
      if checker expr i then
        let r := collectSeqGo expr checker fuel (i + 1)
        (expr.get ⟨i, h⟩ :: r.1, r.2)
      else ([], i)
    else ([], i)

/-- `Parser::collectSequence`: collects while the checker matches, then
steps back to the last character of the sequence (`exprIndex--`). -/
def collectSequence (expr : List Char) (checker : List Char → Nat → Bool)
    (i : Nat) : List Char × Nat :=
  let r := collectSeqGo expr checker (expr.length - i) i
  (r.1, r.2 - 1)

/-- The digits of a numeral read in base 10. -/
def natOfDigits (l : List Char) : Nat :=
  l.foldl (fun a c => a * 10 + (c.toNat - 48)) 0

/-- `atof` on a digits-and-at-most-one-dot sequence, read as the exact
decimal value it denotes (see `Float64`). -/
def atof (s : List Char) : Float64 :=
  let ip := s.takeWhile (fun c => c ≠ '.')
  let fp := (s.dropWhile (fun c => c ≠ '.')).tail
  ⟨((natOfDigits ip * 10 ^ fp.length + natOfDigits fp : Nat) : Int),
    ((10 ^ fp.length : Nat) : Int)⟩

/-- `Parser::collectNumToken`: collect the digit-or-dot run, reject a
run with more than one dot, a trailing dot, or a run immediately
followed by an identifier-continuation character; otherwise produce the
`Num` token.  Returns the token and the cursor (on the last character
of the token, as in the source). -/
def collectNumToken (expr : List Char) (i : Nat) : Except Error (Node × Nat) :=
  let startPos := i
  let r := collectSequence expr (fun e j => isNumChar (e.getD j ' ') false) i
  let seq := r.1
  let i2 := r.2
  let pos : Position := ⟨startPos, i2 + 1⟩
  if seq.count '.' > 1 then
    .error ⟨["number cannot include more than one dot"], pos⟩
  else if seq.getLast? = some '.' then
    .error ⟨["number cannot end with a dot (correction: `", String.mk seq.dropLast, "`)"], pos⟩
  else if i2 + 1 < expr.length && isIdentifierChar (expr.getD (i2 + 1) ' ') false then
    .error ⟨["number cannot include part of identifier (correction: `", String.mk seq,
             " ", String.mk [expr.getD (i2 + 1) ' '], "...`)"],
            ⟨pos.startPos, i2 + 2⟩⟩
  else
    .ok (Node.num (atof seq) pos, i2)

/-- The look-behind checker of `Parser::collectStringToken`: any
character other than `'`, unless that `'` is escaped (preceded by a
single, non-doubled, backslash). -/
def stringChecker (expr : List Char) (i : Nat) : Bool :=
  expr.getD i ' ' ≠ quoteChar ||
    (expr.getD (i - 1) ' ' = backslashChar && expr.getD (i - 2) ' ' ≠ backslashChar)

/-- Modelled from the spec: `escapeChar` is declared in `nscript.h`;
the minimal escape set newline/tab/backslash/quote, an unrecognized
escape character being an error at its offset. -/
def escapeChar (c : Char) (pos : Position) : Except Error Char :=
  if c = 'n' then .ok (Char.ofNat 10)
  else if c = 't' then .ok (Char.ofNat 9)
  else if c = backslashChar then .ok backslashChar
  else if c = quoteChar then .ok quoteChar
  else .error ⟨["unknown escape character"], pos⟩

/-- `Parser::escapesToEscaped`: decode backslash escape sequences in a
collected string body; `start` is the span start of the literal and `i`
the index of the current character within the body (the source indexes
with a `for` loop; a body ending in a lone backslash would read past
the buffer in the source and is unreachable from the lexer). -/
def escapesToEscaped : List Char → Nat → Nat → Except Error (List Char)
  | [], _, _ => .ok []
  | c :: rest, start, i =>
    if c = backslashChar then
      match rest with
      | [] => .ok []
      | d :: rest2 => do
        let e ← escapeChar d ⟨start + i, start + i + 1⟩
        let t ← escapesToEscaped rest2 start (i + 2)
        pure (e :: t)
    else do
      let t ← escapesToEscaped rest start (i + 1)
      pure (c :: t)

/-- `Parser::collectStringToken`: eat the opening quote, collect the
body with the look-behind checker, step onto the closing quote, demand
that it exists, and decode escapes. -/
def collectStringToken (expr : List Char) (i : Nat) : Except Error (Node × Nat) :=
  let i1 := i + 1
  let startPos := i1 - 1
  let r := collectSequence expr stringChecker i1
  let seq := r.1
  let i2 := r.2
  let pos : Position := ⟨startPos, i2 + 2⟩
  let i3 := i2 + 1
  if expr.length ≤ i3 then
    .error ⟨["unclosed string"], ⟨startPos, i3⟩⟩
  else do
    let body ← escapesToEscaped seq pos.startPos 0
    .ok (Node.str (String.mk body) pos, i3)

/-- `Parser::collectIdentifierToken`: collect the
identifier-continuation run. -/
def collectIdentifierToken (expr : List Char) (i : Nat) : Node × Nat :=
  let startPos := i
  let r := collectSequence expr (fun e j => isIdentifierChar (e.getD j ' ') false) i
  (Node.identifier (String.mk r.1) ⟨startPos, r.2 + 1⟩, r.2)

/-- `Parser::convertToKeywordWhenPossible`: an identifier spelled
`none` becomes the `None` keyword token. -/
def convertToKeywordWhenPossible (token : Node) : Node :=
  match token with
  | .identifier s pos => if s = "none" then Node.noneV pos else token
  | _ => token

/-- The `NodeKind(c)` cast for the eight single-character punctuation
tokens. -/
def charKind (c : Char) : NodeKind :=
  if c = '+' then .Plus
  else if c = '-' then .Minus
  else if c = '*' then .Star
  else if c = '/' then .Slash
  else if c = '(' then .LPar
  else if c = ')' then .RPar
  else if c = ',' then .Comma
  else .Eq

/-- `Parser::nextToken`: skip whitespace, emit `Eof` at end of input,
otherwise dispatch on the first character (identifier / number /
string / punctuation, anything else a `Bad` token) and advance past the
token.  Returns the token and the new cursor. -/
def nextToken (expr : List Char) (i0 : Nat) : Except Error (Node × Nat) :=
  let i := eatWhitespaces expr i0
  if h : i < expr.length then
    let c := expr.get ⟨i, h⟩
    if isIdentifierChar c true then
      let r := collectIdentifierToken expr i
      .ok (convertToKeywordWhenPossible r.1, r.2 + 1)
    else if isNumChar c true then do
      let r ← collectNumToken expr i
      .ok (r.1, r.2 + 1)
    else if c = quoteChar then do
      let r ← collectStringToken expr i
      .ok (r.1, r.2 + 1)
    else if c ∈ ['+', '-', '*', '/', '(', ')', ',', '='] then
      .ok (Node.punct (charKind c) (String.mk [c]) (curPos i), i + 1)
    else
      .ok (Node.bad (curPos i), i + 1)
  else
    .ok (Node.eofT (curPos i), i)

/-! ## Parser

The recursive-descent parser.  The source recursion is not obviously
terminating term-by-term, so every parser function here takes a fuel
argument and is structurally recursive on it; running out of fuel
yields the artificial `outOfFuel` error, which no run with enough fuel
ever reaches. -/

/-- The artificial fuel-exhaustion error of this embedding (no source
counterpart; unreachable with sufficient fuel). -/
def outOfFuel : Error := ⟨["out of fuel"], ⟨0, 0⟩⟩

/-- The parser state: source buffer, cursor, one token of lookahead
(`curToken`) and the previously consumed token (`prevToken`), as
described in the spec (the fields live in `nscript.h`). -/
structure ParserState where
  expr : List Char
  exprIndex : Nat
  curToken : Node
  prevToken : Node
deriving Repr

/-- Modelled from the spec: `advance` pulls the next token from the
lexer into `curToken`, retaining the consumed one as `prevToken`. -/
def ParserState.advance (st : ParserState) : Except Error ParserState := do
  let r ← nextToken st.expr st.exprIndex
  .ok { st with exprIndex := r.2, curToken := r.1, prevToken := st.curToken }

/-- `getCurAndAdvance`: the current token, and the state advanced past
it. -/
def ParserState.getCurAndAdvance (st : ParserState) : Except Error (Node × ParserState) := do
  let st2 ← st.advance
  .ok (st.curToken, st2)

/-- `eofToken()`: the lookahead is the end-of-input sentinel. -/
def ParserState.eofToken (st : ParserState) : Bool :=
  st.curToken.kind = NodeKind.Eof

/-- Modelled from the spec: `expectTokenAndAdvance` requires the
current token to have the given kind (else an "unexpected token" error
at its position) and advances past it (`nscript.h`). -/
def ParserState.expectTokenAndAdvance (st : ParserState) (k : NodeKind) :
    Except Error ParserState :=
  if st.curToken.kind = k then st.advance
  else .error ⟨["unexpected token"], st.curToken.pos⟩

/-- The while-loop of `Parser::expectBinaryOrTerm`: as long as the
lookahead is one of the accepted operators, consume it, parse the next
right operand with `expector`, and fold the result left-associatively
into a `Bin` node spanning from the left operand's start to the right
operand's end. -/
def binOrTermLoop (expector : ParserState → Except Error (Node × ParserState))
    (operators : List NodeKind) :
    Nat → Node → ParserState → Except Error (Node × ParserState)
  | 0, _, _ => .error outOfFuel
  | fuel + 1, left, st =>
    if !st.eofToken && st.curToken.kind ∈ operators then do
      let (op, st2) ← st.getCurAndAdvance
      let (right, st3) ← expector st2
      binOrTermLoop expector operators fuel
        (Node.bin left right op ⟨left.pos.startPos, right.pos.endPos⟩) st3
    else
      .ok (left, st)

/-- `Parser::expectBinaryOrTerm`: the generic left-associative
binary-or-term combinator — parse a left operand with `expector`, then
fold operator/operand pairs. -/
def expectBinaryOrTerm (expector : ParserState → Except Error (Node × ParserState))
    (operators : List NodeKind) (fuel : Nat) (st : ParserState) :
    Except Error (Node × ParserState) := do
  let (left, st2) ← expector st
  binOrTermLoop expector operators fuel left st2

mutual
/-- Modelled from the spec: the grammar wiring (declared in
`nscript.h`) — `expression := term (('+' | '-') term)*` and
`term := factor (('*' | '/') factor)*`, each level one instance of the
generic `expectBinaryOrTerm` combinator, with `expectTerm` as the
factor parser. -/
def expectExpression : Nat → ParserState → Except Error (Node × ParserState)
  | 0, _ => .error outOfFuel
  | fuel + 1, st =>
    expectBinaryOrTerm
      (fun s => expectBinaryOrTerm (fun s2 => expectTerm fuel s2) [.Star, .Slash] fuel s)
      [.Plus, .Minus] fuel st

/-- `Parser::expectTerm`: a literal / identifier / `none` token, a
unary `+`/`-` applied to another term, or a parenthesized expression;
then, on the parsed result, postfix disambiguation — `(` starts a call,
`=` starts an assignment. -/
def expectTerm : Nat → ParserState → Except Error (Node × ParserState)
  | 0, _ => .error outOfFuel
  | fuel + 1, st => do
    let (tk, st2) ← st.getCurAndAdvance
    let r ←
      if tk.kind = NodeKind.Identifier ∨ tk.kind = NodeKind.Num ∨
          tk.kind = NodeKind.String ∨ tk.kind = NodeKind.None then
        pure (tk, st2)
      else if tk.kind = NodeKind.Plus ∨ tk.kind = NodeKind.Minus then do
        let (term, st3) ← expectTerm fuel st2
        pure (Node.una term tk ⟨tk.pos.startPos, term.pos.endPos⟩, st3)
      else if tk.kind = NodeKind.LPar then do
        let (term, st3) ← expectExpression fuel st2
        let st4 ← st3.expectTokenAndAdvance .RPar
        pure (term, st4)
      else
        .error ⟨["unexpected token (found `", tk.toString, "`)"], tk.pos⟩
    let (term, st5) := r
    if st5.curToken.kind = NodeKind.LPar then
      collectCallNode fuel term st5
    else if st5.curToken.kind = NodeKind.Eq then
      collectAssignNode fuel term st5
    else
      pure (term, st5)

/-- `Parser::collectAssignNode`: the target must be an identifier; eat
`=`, parse a full expression as the right-hand side; the node spans
from the name's start to the expression's end. -/
def collectAssignNode : Nat → Node → ParserState → Except Error (Node × ParserState)
  | 0, _, _ => .error outOfFuel
  | fuel + 1, name, st =>
    if name.kind ≠ NodeKind.Identifier then
      .error ⟨["expected an identifier when assigning"], name.pos⟩
    else do
      let st2 ← st.advance
      let (expr, st3) ← expectExpression fuel st2
      pure (Node.assign name expr ⟨name.pos.startPos, expr.pos.endPos⟩, st3)

/-- `Parser::collectCallNode`: the callee must be an identifier or a
string; eat `(` and collect the comma-separated argument list. -/
def collectCallNode : Nat → Node → ParserState → Except Error (Node × ParserState)
  | 0, _, _ => .error outOfFuel
  | fuel + 1, name, st =>
    if name.kind ≠ NodeKind.Identifier ∧ name.kind ≠ NodeKind.String then
      .error ⟨["expected string or identifier call name"], name.pos⟩
    else do
      let startPos := st.curToken.pos.startPos
      let st2 ← st.advance
      callLoop fuel name startPos [] st2

/-- The `while (true)` argument loop of `Parser::collectCallNode`:
end-of-input is an unclosed-list error; `)` closes the call (the node
spans from the callee's start to the `)`); a comma is required before
every argument after the first; each argument is a full expression. -/
def callLoop : Nat → Node → Nat → List Node → ParserState → Except Error (Node × ParserState)
  | 0, _, _, _, _ => .error outOfFuel
  | fuel + 1, name, startPos, args, st =>
    if st.eofToken then
      .error ⟨["unclosed call parameters list"], ⟨startPos, st.prevToken.pos.endPos⟩⟩
    else if st.curToken.kind = NodeKind.RPar then do
      let st2 ← st.advance
      pure (Node.call name args ⟨name.pos.startPos, st2.prevToken.pos.endPos⟩, st2)
    else do
      let st2 ← if args.length > 0 then st.expectTokenAndAdvance .Comma else pure st
      let r ← expectExpression fuel st2
      callLoop fuel name startPos (args ++ [r.1]) r.2
end

/-- Modelled from the spec: the parse entry point — initialise the
parser on the source text by pulling the first token, then parse one
top-level expression (the driver lives in `nscript.h`). -/
def parse (source : String) (fuel : Nat) : Except Error Node := do
  let expr := source.data
  let r ← nextToken expr 0
  let st : ParserState := ⟨expr, r.2, r.1, Node.bad ⟨0, 0⟩⟩
  let p ← expectExpression fuel st
  pure p.1

/-! ## Evaluator

The tree-walking evaluator.  The Environment (`Evaluator::map`) is an
ordered list of name/value pairs; because in the source it is a field
mutated in place and an exception does not undo mutations, every
evaluator function here returns the environment (and the text written
to the output sink) alongside the result, on errors as well.  As in the
parser, the recursion is made structural by a fuel argument. -/

/-- The ordered name→value map `Evaluator::map`. -/
abbrev Env := List (String × Node)

/-- What one evaluator call leaves behind: the value or first error,
the environment, and the text written to the output sink. -/
structure EvalOut where
  result : Except Error Node
  env : Env
  out : String
deriving Repr

/-- The linear scan of `Evaluator::evaluateIdentifier`. -/
def envLookup : Env → String → Option Node
  | [], _ => none
  | (k, v) :: rest, name => if k = name then some v else envLookup rest name

/-- The overwrite-or-append loop of `Evaluator::evaluateAssign`: if the
name is already bound, overwrite that pair's value in place; otherwise
append a new pair at the end. -/
def envSet : Env → String → Node → Env
  | [], name, v => [(name, v)]
  | (k, w) :: rest, name, v =>
    if k = name then (k, v) :: rest else (k, w) :: envSet rest name v

/-- `Evaluator::expectType`: demand an evaluated kind, else a type
error at the given position. -/
def expectType (node : Node) (type : NodeKind) (pos : Position) : Except Error Node :=
  if node.kind ≠ type then
    .error ⟨["expected a value with type ", kindToString type,
             " (found ", kindToString node.kind, ")"], pos⟩
  else
    .ok node

/-- `Evaluator::expectArgsCount`: demand an exact argument count, else
an arity error at the callee's position (the `CallNode` argument is
flattened to the callee node and the argument count). -/
def expectArgsCount (callName : Node) (argsLen : Nat) (count : Nat) : Except Error Unit :=
  if argsLen ≠ count then
    .error ⟨["expected args ", Nat.repr count, " (found ", Nat.repr argsLen, ")"],
            callName.pos⟩
  else
    .ok ()

/-- `Evaluator::evaluateIdentifier`: linear lookup by name, returning
the stored node itself; "unknown variable" if absent. -/
def evaluateIdentifier (identifier : Node) (env : Env) (out : String) : EvalOut :=
  match envLookup env identifier.strValue with
  | some v => ⟨.ok v, env, out⟩
  | none => ⟨.error ⟨["unknown variable"], identifier.pos⟩, env, out⟩

/-- `Evaluator::builtinPrint`: render every argument by its source-text
form (`Node::toString`) — without evaluating it — write the
concatenation to the output sink, and return a `None` value at the
call's position. -/
def builtinPrint (args : List Node) (pos : Position) (env : Env) (out : String) : EvalOut :=
  ⟨.ok (Node.noneNode pos), env, out ++ String.join (args.map Node.toString)⟩

/-- `Evaluator::evaluateOperationStr`: strings support only `+`
(concatenation). -/
def evaluateOperationStr (op : Node) (l r : String) : Except Error String :=
  if op.kind ≠ NodeKind.Plus then
    .error ⟨["string does not support bin `", kindToString op.kind, "`"], op.pos⟩
  else
    .ok (l ++ r)

/-- `Evaluator::evaluateOperationNum`: `+ - *` as arithmetic on the
number payloads (double arithmetic in the source, exact-value model
here — see `Float64.add`); `/` with a zero right operand is the
"dividing by 0" error at the right operand's position (the
`default: panic` arm of the source switch is unreachable and modelled
as an error). -/
def evaluateOperationNum (op : NodeKind) (l r : Float64) (rPos : Position) :
    Except Error Float64 :=
  match op with
  | .Plus => .ok (l.add r)
  | .Minus => .ok (l.sub r)
  | .Star => .ok (l.mul r)
  | .Slash =>
    if r.isZero then .error ⟨["dividing by 0"], rPos⟩
    else .ok (l.div r)
  | _ => .error ⟨["unreachable"], rPos⟩

mutual
/-- `Evaluator::evaluateNode`: dispatch on the node kind — `Num`,
`String` and `None` evaluate to themselves; the `default: panic` arm is
modelled as an error. -/
def evaluateNode : Nat → Node → Env → String → EvalOut
  | 0, _, env, out => ⟨.error outOfFuel, env, out⟩
  | fuel + 1, node, env, out =>
    match node with
    | .num v p => ⟨.ok (Node.num v p), env, out⟩
    | .str s p => ⟨.ok (Node.str s p), env, out⟩
    | .noneV p => ⟨.ok (Node.noneV p), env, out⟩
    | .bin l r op _ => evaluateBin fuel l r op env out
    | .una t op _ => evaluateUna fuel t op env out
    | .identifier s p => evaluateIdentifier (Node.identifier s p) env out
    | .assign name expr pos => evaluateAssign fuel name expr pos env out
    | .call cname args pos => evaluateCall fuel cname args pos env out
    | other => ⟨.error ⟨["unimplemented evaluateNode for some NodeKind"], other.pos⟩, env, out⟩

/-- `Evaluator::evaluateAssign`: evaluate the right-hand expression
first; only if that succeeds, overwrite-or-append the binding under
the target name; the assignment's own value is `None` at the
assignment node's position. -/
def evaluateAssign : Nat → Node → Node → Position → Env → String → EvalOut
  | 0, _, _, _, env, out => ⟨.error outOfFuel, env, out⟩
  | fuel + 1, name, expr, pos, env, out =>
    let r := evaluateNode fuel expr env out
    match r.result with
    | .error e => ⟨.error e, r.env, r.out⟩
    | .ok v => ⟨.ok (Node.noneNode pos), envSet r.env name.strValue v, r.out⟩

/-- `Evaluator::evaluateUna`: evaluate the operand; only `Num`
supports unary; multiply by `-1` for `Minus`, `+1` for `Plus`. -/
def evaluateUna : Nat → Node → Node → Env → String → EvalOut
  | 0, _, _, env, out => ⟨.error outOfFuel, env, out⟩
  | fuel + 1, tm, op, env, out =>
    let r := evaluateNode fuel tm env out
    match r.result with
    | .error e => ⟨.error e, r.env, r.out⟩
    | .ok term =>
      match term with
      | .num n tpos =>
        ⟨.ok (Node.num (n.mul ⟨if op.kind = NodeKind.Minus then -1 else 1, 1⟩) tpos),
          r.env, r.out⟩
      | other =>
        ⟨.error ⟨["type `", kindToString other.kind, "` does not support unary `",
                  kindToString op.kind, "`"], other.pos⟩, r.env, r.out⟩

/-- `Evaluator::evaluateBin`: evaluate the left operand, then the
right, unconditionally; operand kinds must match exactly (note the
source misspells "unknown" as "unkwnon" in that message); then `Num`
and `String` operands dispatch to their operation, anything else does
not support binary operators.  The result value keeps the evaluated
left operand's start and takes the evaluated right operand's end. -/
def evaluateBin : Nat → Node → Node → Node → Env → String → EvalOut
  | 0, _, _, _, env, out => ⟨.error outOfFuel, env, out⟩
  | fuel + 1, l, r, op, env, out =>
    let r1 := evaluateNode fuel l env out
    match r1.result with
    | .error e => ⟨.error e, r1.env, r1.out⟩
    | .ok left =>
      let r2 := evaluateNode fuel r r1.env r1.out
      match r2.result with
      | .error e => ⟨.error e, r2.env, r2.out⟩
      | .ok right =>
        if left.kind ≠ right.kind then
          ⟨.error ⟨["unkwnon bin `", op.toString, "` between different types (`",
                    kindToString left.kind, "` and `", kindToString right.kind, "`)"],
                   op.pos⟩, r2.env, r2.out⟩
        else
          match left, right with
          | .num ln lpos, .num rn rpos =>
            match evaluateOperationNum op.kind ln rn rpos with
            | .error e => ⟨.error e, r2.env, r2.out⟩
            | .ok q => ⟨.ok (Node.num q ⟨lpos.startPos, rpos.endPos⟩), r2.env, r2.out⟩
          | .str ls lpos, .str rs rpos =>
            match evaluateOperationStr op ls rs with
            | .error e => ⟨.error e, r2.env, r2.out⟩
            | .ok s => ⟨.ok (Node.str s ⟨lpos.startPos, rpos.endPos⟩), r2.env, r2.out⟩
          | left2, _ =>
            ⟨.error ⟨["type `", kindToString left2.kind, "` does not support bin"],
                     op.pos⟩, r2.env, r2.out⟩

/-- `Evaluator::evaluateCall`: a string-named call dispatches to the
external process-invocation collaborator, which is unimplemented (a
`panic` in the source, modelled as an error); an identifier-named call
dispatches by exact name to the fixed builtin table `print` / `floor`;
any other name is an "unknown builtin function" error. -/
def evaluateCall : Nat → Node → List Node → Position → Env → String → EvalOut
  | 0, _, _, _, env, out => ⟨.error outOfFuel, env, out⟩
  | fuel + 1, cname, args, pos, env, out =>
    if cname.kind = NodeKind.String then
      ⟨.error ⟨["evaluateCallProcess not implemented yet"], pos⟩, env, out⟩
    else if cname.strValue = "print" then
      builtinPrint args pos env out
    else if cname.strValue = "floor" then
      builtinFloor fuel cname args env out
    else
      ⟨.error ⟨["unknown builtin function"], cname.pos⟩, env, out⟩

/-- `Evaluator::builtinFloor`: exactly one argument; evaluate it; the
evaluated kind must be `Num`; truncate the value through the unsigned
64-bit integer conversion and return the copied literal with the
truncated value. -/
def builtinFloor : Nat → Node → List Node → Env → String → EvalOut
  | 0, _, _, env, out => ⟨.error outOfFuel, env, out⟩
  | fuel + 1, cname, args, env, out =>
    match expectArgsCount cname args.length 1 with
    | .error e => ⟨.error e, env, out⟩
    | .ok _ =>
      let arg := args.getD 0 (Node.bad ⟨0, 0⟩)
      let r := evaluateNode fuel arg env out
      match r.result with
      | .error e => ⟨.error e, r.env, r.out⟩
      | .ok v =>
        match expectType v NodeKind.Num arg.pos, v with
        | .error e, _ => ⟨.error e, r.env, r.out⟩
        | .ok _, .num q qpos => ⟨.ok (Node.num q.toUInt64Trunc qpos), r.env, r.out⟩
        | .ok _, _ => ⟨.error ⟨["unreachable"], arg.pos⟩, r.env, r.out⟩
end

/-- Modelled from the spec: the evaluate entry point — parse the source
text, then evaluate the tree against the given Environment; the result
is the final value or first error, together with the Environment and
the text written to the output sink. -/
def evaluate (source : String) (env : Env) (fuel : Nat) : EvalOut :=
  match parse source fuel with
  | .error e => ⟨.error e, env, ""⟩
  | .ok node => evaluateNode fuel node env ""

/-- A session: fold `evaluate` over a sequence of source texts against
one Environment (REPL-like reuse), keeping the final Environment. -/
def evaluateSeq (sources : List String) (env : Env) (fuel : Nat) : Env :=
  sources.foldl (fun e s => (evaluate s e fuel).env) env

/-! ## Statement-support definitions -/

/-- The Environment invariant of the spec: the bound names are pairwise
distinct. -/
def distinctNames (env : Env) : Prop := (env.map Prod.fst).Nodup

mutual
/-- An expression containing no `Assign` node anywhere. -/
def noAssign : Node → Bool
  | .assign .. => false
  | .bin l r op _ => noAssign l && noAssign r && noAssign op
  | .una t op _ => noAssign t && noAssign op
  | .call n args _ => noAssign n && noAssignList args
  | _ => true

/-- `noAssign` on every element of an argument list. -/
def noAssignList : List Node → Bool
  | [] => true
  | a :: rest => noAssign a && noAssignList rest
end

/-- The digit-or-dot run `collectNumToken` collects when started at
`i`. -/
def numSeq (expr : List Char) (i : Nat) : List Char :=
  (expr.drop i).takeWhile (fun c => isNumChar c false)

/-- The cursor after collecting `numSeq expr i` (on the last character
of the run, as `collectSequence` leaves it). -/
def numSeqEnd (expr : List Char) (i : Nat) : Nat :=
  i + (numSeq expr i).length - 1

/-! Concrete parse trees of the programs the claims evaluate, used to
cut the parse-then-evaluate computations into two steps. -/

/-- The parse tree of `"2 + 3 * 4"`. -/
def ast2p3t4 : Node :=
  Node.bin (Node.num ⟨2, 1⟩ ⟨0, 1⟩)
    (Node.bin (Node.num ⟨3, 1⟩ ⟨4, 5⟩) (Node.num ⟨4, 1⟩ ⟨8, 9⟩)
      (Node.punct .Star "*" ⟨6, 7⟩) ⟨4, 9⟩)
    (Node.punct .Plus "+" ⟨2, 3⟩) ⟨0, 9⟩

/-- The parse tree of `"(2 + 3) * 4"`. -/
def astP2p3t4 : Node :=
  Node.bin
    (Node.bin (Node.num ⟨2, 1⟩ ⟨1, 2⟩) (Node.num ⟨3, 1⟩ ⟨5, 6⟩)
      (Node.punct .Plus "+" ⟨3, 4⟩) ⟨1, 6⟩)
    (Node.num ⟨4, 1⟩ ⟨10, 11⟩) (Node.punct .Star "*" ⟨8, 9⟩) ⟨1, 11⟩

/-- The parse tree of `"x = 5"`. -/
def astX5 : Node :=
  Node.assign (Node.identifier "x" ⟨0, 1⟩) (Node.num ⟨5, 1⟩ ⟨4, 5⟩) ⟨0, 5⟩

/-- The parse tree of `"x = 6"`. -/
def astX6 : Node :=
  Node.assign (Node.identifier "x" ⟨0, 1⟩) (Node.num ⟨6, 1⟩ ⟨4, 5⟩) ⟨0, 5⟩

/-- The parse tree of `"x = 2 + 3"`. -/
def astXAssign : Node :=
  Node.assign (Node.identifier "x" ⟨0, 1⟩)
    (Node.bin (Node.num ⟨2, 1⟩ ⟨4, 5⟩) (Node.num ⟨3, 1⟩ ⟨8, 9⟩)
      (Node.punct .Plus "+" ⟨6, 7⟩) ⟨4, 9⟩) ⟨0, 9⟩

/-- The parse tree of `"floor(3.7)"`. -/
def astFloor37 : Node :=
  Node.call (Node.identifier "floor" ⟨0, 5⟩) [Node.num ⟨37, 10⟩ ⟨6, 9⟩] ⟨0, 10⟩

/-- The parse tree of `"floor(1, 2)"`. -/
def astFloor12 : Node :=
  Node.call (Node.identifier "floor" ⟨0, 5⟩)
    [Node.num ⟨1, 1⟩ ⟨6, 7⟩, Node.num ⟨2, 1⟩ ⟨9, 10⟩] ⟨0, 11⟩

/-- The parse tree of `"1 + 'x'"`. -/
def astOnePlusStr : Node :=
  Node.bin (Node.num ⟨1, 1⟩ ⟨0, 1⟩) (Node.str "x" ⟨4, 7⟩)
    (Node.punct .Plus "+" ⟨2, 3⟩) ⟨0, 7⟩

/-- The parse tree of `"5 / 0"`. -/
def astFiveDiv0 : Node :=
  Node.bin (Node.num ⟨5, 1⟩ ⟨0, 1⟩) (Node.num ⟨0, 1⟩ ⟨4, 5⟩)
    (Node.punct .Slash "/" ⟨2, 3⟩) ⟨0, 5⟩

/-- The parse tree of `"print(x)"`. -/
def astPrintX : Node :=
  Node.call (Node.identifier "print" ⟨0, 5⟩) [Node.identifier "x" ⟨6, 7⟩] ⟨0, 8⟩

/-! ## Helper lemmas -/

/-- Splitting the evaluate entry point at a successful parse. -/
theorem evaluate_parse_ok (source : String) (env : Env) (fuel : Nat) (node : Node)
    (h : parse source fuel = .ok node) :
    evaluate source env fuel = evaluateNode fuel node env "" := by
  unfold evaluate
  rw [h]

/-- Splitting the evaluate entry point at a parse error. -/
theorem evaluate_parse_err (source : String) (env : Env) (fuel : Nat) (e : Error)
    (h : parse source fuel = .error e) :
    evaluate source env fuel = ⟨.error e, env, ""⟩ := by
  unfold evaluate
  rw [h]

/-! ## Claims -/

/-- C1: evaluation respects operator precedence and grouping —
`"2 + 3 * 4"` parses with `3 * 4` grouped under the `+` (so `*` binds
tighter) and evaluates to the `Num` value `14`, while `"(2 + 3) * 4"`
parses with the parenthesized sum grouped under the `*` and evaluates
to the `Num` value `20`. -/
theorem claim1_precedence_and_grouping :
    parse "2 + 3 * 4" 100 = .ok ast2p3t4 ∧
    (evaluate "2 + 3 * 4" [] 100).result = .ok (Node.num ⟨14, 1⟩ ⟨0, 9⟩) ∧
    parse "(2 + 3) * 4" 100 = .ok astP2p3t4 ∧
    (evaluate "(2 + 3) * 4" [] 100).result = .ok (Node.num ⟨20, 1⟩ ⟨1, 11⟩) ∧
    (Float64.mk 14 1).toRat = 14 ∧ (Float64.mk 20 1).toRat = 20 := by
  refine ⟨rfl, ?_, rfl, ?_, ?_, ?_⟩
  · rw [evaluate_parse_ok "2 + 3 * 4" [] 100 ast2p3t4 rfl]; rfl
  · rw [evaluate_parse_ok "(2 + 3) * 4" [] 100 astP2p3t4 rfl]; rfl
  · norm_num [Float64.toRat]
  · norm_num [Float64.toRat]

/-- C3: the builtin `print` renders every argument by its source-text
representation (`Node::toString` of the parsed form), evaluates none of
them, leaves the Environment untouched, and returns a `None` value;
concretely, printing a variable `x` bound to `5` writes `"x"`, not
`"5"`. -/
theorem claim3_print_renders_source_text :
    (∀ fuel args pos npos env out,
      evaluateNode (fuel + 2) (Node.call (Node.identifier "print" npos) args pos) env out =
        ⟨.ok (Node.noneNode pos), env, out ++ String.join (args.map Node.toString)⟩) ∧
    evaluate "print(x)" [("x", Node.num ⟨5, 1⟩ ⟨4, 9⟩)] 100 =
      ⟨.ok (Node.noneV ⟨0, 8⟩), [("x", Node.num ⟨5, 1⟩ ⟨4, 9⟩)], "x"⟩ := by
  constructor
  · intro fuel args pos npos env out
    show evaluateNode (fuel + 1 + 1) _ _ _ = _
    simp [evaluateNode, evaluateCall, builtinPrint, Node.kind, Node.strValue,
      Node.noneNode]
  · rw [evaluate_parse_ok "print(x)" [("x", Node.num ⟨5, 1⟩ ⟨4, 9⟩)] 100 astPrintX rfl]; rfl

/-- C7: evaluating an `Assign` node evaluates the right-hand expression
first and only then writes the binding (overwrite-or-append via
`envSet`); its own result is always a `None` value, never the assigned
value; and if the right-hand side fails, nothing is written. -/
theorem claim7_assign_rhs_first_returns_none :
    (∀ fuel name expr pos env out,
      evaluateNode (fuel + 1) (Node.assign name expr pos) env out =
        evaluateAssign fuel name expr pos env out) ∧
    (∀ fuel s npos expr pos env out v env1 out1,
      evaluateNode fuel expr env out = ⟨.ok v, env1, out1⟩ →
      evaluateAssign (fuel + 1) (Node.identifier s npos) expr pos env out =
        ⟨.ok (Node.noneNode pos), envSet env1 s v, out1⟩) ∧
    (∀ fuel s npos expr pos env out e env1 out1,
      evaluateNode fuel expr env out = ⟨.error e, env1, out1⟩ →
      evaluateAssign (fuel + 1) (Node.identifier s npos) expr pos env out =
        ⟨.error e, env1, out1⟩) := by
  refine ⟨?_, ?_, ?_⟩
  · intro fuel name expr pos env out
    simp only [evaluateNode]
  · intro fuel s npos expr pos env out v env1 out1 h
    simp only [evaluateAssign, h, Node.strValue]
  · intro fuel s npos expr pos env out e env1 out1 h
    simp only [evaluateAssign, h]

/-- Witness for C7 at a concrete input. -/
theorem claim7_assign_rhs_first_returns_none_witness :
    evaluateAssign (1 + 1) (Node.identifier "z" ⟨0, 1⟩) (Node.num ⟨7, 1⟩ ⟨4, 5⟩)
      ⟨0, 5⟩ [] "" =
      ⟨.ok (Node.noneNode ⟨0, 5⟩), envSet [] "z" (Node.num ⟨7, 1⟩ ⟨4, 5⟩), ""⟩ :=
  claim7_assign_rhs_first_returns_none.2.1 1 "z" ⟨0, 1⟩ (Node.num ⟨7, 1⟩ ⟨4, 5⟩)
    ⟨0, 5⟩ [] "" (Node.num ⟨7, 1⟩ ⟨4, 5⟩) [] "" rfl

/-- C10: evaluating a bound identifier returns exactly the stored node,
unchanged, including its `Position`; concretely, after `"x = 2 + 3"`
the stored value spans `2 + 3` (offsets 4–9 of the first source text),
and evaluating the one-character source `"x"` returns that value still
carrying span 4–9, not the identifier occurrence's span 0–1. -/
theorem claim10_lookup_returns_stored :
    (∀ env s pos out v, envLookup env s = some v →
      evaluateIdentifier (Node.identifier s pos) env out = ⟨.ok v, env, out⟩) ∧
    (evaluate "x = 2 + 3" [] 100).env = [("x", Node.num ⟨5, 1⟩ ⟨4, 9⟩)] ∧
    parse "x" 100 = .ok (Node.identifier "x" ⟨0, 1⟩) ∧
    (evaluate "x" [("x", Node.num ⟨5, 1⟩ ⟨4, 9⟩)] 100).result =
      .ok (Node.num ⟨5, 1⟩ ⟨4, 9⟩) ∧
    (Position.mk 4 9) ≠ (Position.mk 0 1) := by
  refine ⟨?_, ?_, rfl, ?_, by decide⟩
  · intro env s pos out v h
    unfold evaluateIdentifier
    simp only [Node.strValue, h]
  · rw [evaluate_parse_ok "x = 2 + 3" [] 100 astXAssign rfl]; rfl
  · rw [evaluate_parse_ok "x" [("x", Node.num ⟨5, 1⟩ ⟨4, 9⟩)] 100
      (Node.identifier "x" ⟨0, 1⟩) rfl]; rfl

/-- Witness for C10 at a concrete input. -/
theorem claim10_lookup_returns_stored_witness :
    evaluateIdentifier (Node.identifier "y" ⟨3, 4⟩) [("y", Node.noneV ⟨0, 0⟩)] "" =
      ⟨.ok (Node.noneV ⟨0, 0⟩), [("y", Node.noneV ⟨0, 0⟩)], ""⟩ :=
  claim10_lookup_returns_stored.1 [("y", Node.noneV ⟨0, 0⟩)] "y" ⟨3, 4⟩ ""
    (Node.noneV ⟨0, 0⟩) rfl

/-- C4, part: the arity check of `builtinFloor`. -/
theorem floor_arity_error (fuel : Nat) (cname : Node) (args : List Node)
    (env : Env) (out : String) (h : args.length ≠ 1) :
    builtinFloor (fuel + 1) cname args env out =
      ⟨.error ⟨["expected args ", Nat.repr 1, " (found ", Nat.repr args.length, ")"],
               cname.pos⟩, env, out⟩ := by
  simp [builtinFloor, expectArgsCount, h]

/-- C4, part: the type check of `builtinFloor` on the evaluated
argument. -/
theorem floor_type_error (fuel : Nat) (cname a : Node) (env : Env) (out : String)
    (v : Node) (env1 : Env) (out1 : String)
    (h : evaluateNode fuel a env out = ⟨.ok v, env1, out1⟩) (hk : v.kind ≠ NodeKind.Num) :
    builtinFloor (fuel + 1) cname [a] env out =
      ⟨.error ⟨["expected a value with type ", kindToString NodeKind.Num, " (found ",
                kindToString v.kind, ")"], a.pos⟩, env1, out1⟩ := by
  simp [builtinFloor, expectArgsCount, h, expectType, hk]

/-- C4, part: the truncation `builtinFloor` applies to a `Num`
argument. -/
theorem floor_num_trunc (fuel : Nat) (cname a : Node) (env : Env) (out : String)
    (q : Float64) (qpos : Position) (env1 : Env) (out1 : String)
    (h : evaluateNode fuel a env out = ⟨.ok (Node.num q qpos), env1, out1⟩) :
    builtinFloor (fuel + 1) cname [a] env out =
      ⟨.ok (Node.num q.toUInt64Trunc qpos), env1, out1⟩ := by
  simp [builtinFloor, expectArgsCount, h, expectType, Node.kind]

/-- C4, part: `"floor(3.7)"` end to end. -/
theorem floor_37_eval :
    (evaluate "floor(3.7)" [] 15).result = .ok (Node.num ⟨3, 1⟩ ⟨6, 9⟩) := by
  rw [evaluate_parse_ok "floor(3.7)" [] 15 astFloor37 rfl]; rfl

set_option maxHeartbeats 2000000 in
/-- C4, part: `"floor(1, 2)"` end to end. -/
theorem floor_12_eval :
    (evaluate "floor(1, 2)" [] 15).result =
      .error ⟨["expected args ", "1", " (found ", "2", ")"], ⟨0, 5⟩⟩ := by
  rw [evaluate_parse_ok "floor(1, 2)" [] 15 astFloor12 rfl]; rfl

/-- C4: the builtin `floor` raises an arity error unless it gets
exactly one argument; it evaluates that argument; a non-`Num` evaluated
kind raises a type error; a `Num` value is truncated toward zero
through the unsigned 64-bit conversion; `"floor(3.7)"` evaluates to the
`Num` value `3` and `"floor(1, 2)"` raises the arity error. -/
theorem claim4_floor_arity_type_truncation :
    (∀ fuel cname args env out, args.length ≠ 1 →
      builtinFloor (fuel + 1) cname args env out =
        ⟨.error ⟨["expected args ", Nat.repr 1, " (found ", Nat.repr args.length, ")"],
                 cname.pos⟩, env, out⟩) ∧
    (∀ fuel cname a env out v env1 out1,
      evaluateNode fuel a env out = ⟨.ok v, env1, out1⟩ → v.kind ≠ NodeKind.Num →
      builtinFloor (fuel + 1) cname [a] env out =
        ⟨.error ⟨["expected a value with type ", kindToString NodeKind.Num, " (found ",
                  kindToString v.kind, ")"], a.pos⟩, env1, out1⟩) ∧
    (∀ fuel cname a env out q qpos env1 out1,
      evaluateNode fuel a env out = ⟨.ok (Node.num q qpos), env1, out1⟩ →
      builtinFloor (fuel + 1) cname [a] env out =
        ⟨.ok (Node.num q.toUInt64Trunc qpos), env1, out1⟩) ∧
    Float64.toUInt64Trunc ⟨37, 10⟩ = ⟨3, 1⟩ ∧
    (evaluate "floor(3.7)" [] 15).result = .ok (Node.num ⟨3, 1⟩ ⟨6, 9⟩) ∧
    (evaluate "floor(1, 2)" [] 15).result =
      .error ⟨["expected args ", "1", " (found ", "2", ")"], ⟨0, 5⟩⟩ :=
  ⟨floor_arity_error, floor_type_error, floor_num_trunc, rfl, floor_37_eval,
   floor_12_eval⟩

/-- Witness for C4 at concrete inputs. -/
theorem claim4_floor_arity_type_truncation_witness :
    builtinFloor (0 + 1) (Node.identifier "floor" ⟨0, 5⟩) [] [] "" =
      ⟨.error ⟨["expected args ", Nat.repr 1, " (found ", Nat.repr 0, ")"], ⟨0, 5⟩⟩,
        [], ""⟩ ∧
    builtinFloor (1 + 1) (Node.identifier "floor" ⟨0, 5⟩) [Node.str "s" ⟨6, 9⟩] [] "" =
      ⟨.error ⟨["expected a value with type ", kindToString NodeKind.Num, " (found ",
                kindToString NodeKind.String, ")"], ⟨6, 9⟩⟩, [], ""⟩ ∧
    builtinFloor (1 + 1) (Node.identifier "floor" ⟨0, 5⟩) [Node.num ⟨37, 10⟩ ⟨6, 9⟩] [] "" =
      ⟨.ok (Node.num (Float64.toUInt64Trunc ⟨37, 10⟩) ⟨6, 9⟩), [], ""⟩ :=
  ⟨claim4_floor_arity_type_truncation.1 0 (Node.identifier "floor" ⟨0, 5⟩) [] [] ""
      (by decide),
   claim4_floor_arity_type_truncation.2.1 1 (Node.identifier "floor" ⟨0, 5⟩)
      (Node.str "s" ⟨6, 9⟩) [] "" (Node.str "s" ⟨6, 9⟩) [] "" rfl (by decide),
   claim4_floor_arity_type_truncation.2.2.1 1 (Node.identifier "floor" ⟨0, 5⟩)
      (Node.num ⟨37, 10⟩ ⟨6, 9⟩) [] "" ⟨37, 10⟩ ⟨6, 9⟩ [] "" rfl⟩


/-- C5, counterexample: the kind-mismatch error the code raises for
`"1 + 'x'"` does not read "unknown bin between different types" — the
source misspells the first word as "unkwnon" and interpolates the
operator and the two kinds. -/
theorem claim5_message_counterexample :
    (evaluate "1 + \x27x\x27" [] 100).result =
      .error ⟨["unkwnon bin `", "+", "` between different types (`", "num",
               "` and `", "string", "`)"], ⟨2, 3⟩⟩ ∧
    String.join ["unkwnon bin `", "+", "` between different types (`", "num",
                 "` and `", "string", "`)"] ≠
      "unknown bin between different types" := by
  constructor
  · rw [evaluate_parse_ok "1 + \x27x\x27" [] 100 astOnePlusStr rfl]; rfl
  · decide

/-- C5, amended: evaluating a `Bin` node evaluates the left operand
first and then the right one, unconditionally (the operator is looked
at only afterwards, so both are evaluated even for an operator that
will be rejected); differing evaluated kinds raise the error whose
fragments read `unkwnon bin <op> between different types (<k> and <k>)`
(sic — the source misspells "unknown") at the operator's position;
`"1 + 'x'"` raises exactly that error. -/
theorem claim5_bin_mismatch_amended :
    (∀ fuel l r op pos env out,
      evaluateNode (fuel + 1) (Node.bin l r op pos) env out =
        evaluateBin fuel l r op env out) ∧
    (∀ fuel l r op env out lv env1 out1 rv env2 out2,
      evaluateNode fuel l env out = ⟨.ok lv, env1, out1⟩ →
      evaluateNode fuel r env1 out1 = ⟨.ok rv, env2, out2⟩ →
      lv.kind ≠ rv.kind →
      evaluateBin (fuel + 1) l r op env out =
        ⟨.error ⟨["unkwnon bin `", op.toString, "` between different types (`",
                  kindToString lv.kind, "` and `", kindToString rv.kind, "`)"], op.pos⟩,
          env2, out2⟩) ∧
    (∀ fuel l r op env out e env1 out1,
      evaluateNode fuel l env out = ⟨.error e, env1, out1⟩ →
      evaluateBin (fuel + 1) l r op env out = ⟨.error e, env1, out1⟩) ∧
    (evaluate "1 + \x27x\x27" [] 100).result =
      .error ⟨["unkwnon bin `", "+", "` between different types (`", "num",
               "` and `", "string", "`)"], ⟨2, 3⟩⟩ := by
  refine ⟨?_, ?_, ?_, ?_⟩
  · intro fuel l r op pos env out
    simp only [evaluateNode]
  · intro fuel l r op env out lv env1 out1 rv env2 out2 h1 h2 hk
    simp only [evaluateBin, h1, h2]
    rw [if_pos hk]
  · intro fuel l r op env out e env1 out1 h1
    simp only [evaluateBin, h1]
  · rw [evaluate_parse_ok "1 + \x27x\x27" [] 100 astOnePlusStr rfl]; rfl

/-- Witness for the amended C5 at a concrete input. -/
theorem claim5_bin_mismatch_amended_witness :
    evaluateBin (1 + 1) (Node.num ⟨1, 1⟩ ⟨0, 1⟩) (Node.str "x" ⟨4, 7⟩)
      (Node.punct .Plus "+" ⟨2, 3⟩) [] "" =
      ⟨.error ⟨["unkwnon bin `", (Node.punct NodeKind.Plus "+" ⟨2, 3⟩).toString,
                "` between different types (`", kindToString (Node.num ⟨1, 1⟩ ⟨0, 1⟩).kind,
                "` and `", kindToString (Node.str "x" ⟨4, 7⟩).kind, "`)"], ⟨2, 3⟩⟩,
        [], ""⟩ :=
  claim5_bin_mismatch_amended.2.1 1 (Node.num ⟨1, 1⟩ ⟨0, 1⟩) (Node.str "x" ⟨4, 7⟩)
    (Node.punct .Plus "+" ⟨2, 3⟩) [] "" (Node.num ⟨1, 1⟩ ⟨0, 1⟩) [] ""
    (Node.str "x" ⟨4, 7⟩) [] "" rfl rfl (by decide)

/-- For a checker that looks only at the character under the cursor,
the `collectSeqGo` loop collects exactly the `takeWhile` run and leaves
the cursor right after it. -/
theorem collectSeqGo_charwise (f : Char → Bool) (expr : List Char) :
    ∀ fuel i, expr.length - i ≤ fuel →
      collectSeqGo expr (fun e j => f (e.getD j ' ')) fuel i =
        ((expr.drop i).takeWhile f, i + ((expr.drop i).takeWhile f).length) := by
  intro fuel
  induction fuel with
  | zero =>
    intro i h
    have hle : expr.length ≤ i := by omega
    simp [collectSeqGo, List.drop_eq_nil_of_le hle]
  | succ fuel ih =>
    intro i h
    by_cases hi : i < expr.length
    · have hgetD : expr.getD i ' ' = expr[i] := List.getD_eq_getElem expr ' ' hi
      have hdrop : expr.drop i = expr[i] :: expr.drop (i + 1) := List.drop_eq_getElem_cons hi
      have hrec := ih (i + 1) (by omega)
      simp only [collectSeqGo, hgetD, List.get_eq_getElem]
      rw [dif_pos hi, hdrop, List.takeWhile_cons]
      by_cases hf : f expr[i] = true
      · rw [if_pos hf, if_pos hf, hrec]
        simp only [List.length_cons, Prod.mk.injEq, true_and]
        omega
      · rw [if_neg hf, if_neg hf]
        simp
    · have hle : expr.length ≤ i := by omega
      simp [collectSeqGo, dif_neg hi, List.drop_eq_nil_of_le hle]

/-- `collectSequence` with the numeric checker: it collects the
digit-or-dot run `numSeq` and leaves the cursor on its last character
(`numSeqEnd`). -/
theorem collectSequence_num (expr : List Char) (i : Nat) :
    collectSequence expr (fun e j => isNumChar (e.getD j ' ') false) i =
      (numSeq expr i, numSeqEnd expr i) := by
  unfold collectSequence numSeqEnd
  rw [collectSeqGo_charwise (fun c => isNumChar c false) expr (expr.length - i) i le_rfl]
  simp [numSeq]

/-- C9: number lexing rejects exactly the malformed shapes the grammar
forbids — a run with more than one dot, a run ending in a dot, and a
run immediately followed by an identifier-continuation character, each
with its error; every other run lexes to a `Num` token carrying the
(exact) value `atof` reads; `"0.0.1"`, `"2."` and `"123abc"` raise
those three errors end to end. -/
theorem claim9_number_lexing :
    (∀ expr i, (numSeq expr i).count '.' > 1 →
      collectNumToken expr i =
        .error ⟨["number cannot include more than one dot"],
                ⟨i, numSeqEnd expr i + 1⟩⟩) ∧
    (∀ expr i, ¬(numSeq expr i).count '.' > 1 →
      (numSeq expr i).getLast? = some '.' →
      collectNumToken expr i =
        .error ⟨["number cannot end with a dot (correction: `",
                 String.mk (numSeq expr i).dropLast, "`)"],
                ⟨i, numSeqEnd expr i + 1⟩⟩) ∧
    (∀ expr i, ¬(numSeq expr i).count '.' > 1 →
      (numSeq expr i).getLast? ≠ some '.' →
      numSeqEnd expr i + 1 < expr.length →
      isIdentifierChar (expr.getD (numSeqEnd expr i + 1) ' ') false = true →
      collectNumToken expr i =
        .error ⟨["number cannot include part of identifier (correction: `",
                 String.mk (numSeq expr i), " ",
                 String.mk [expr.getD (numSeqEnd expr i + 1) ' '], "...`)"],
                ⟨i, numSeqEnd expr i + 2⟩⟩) ∧
    (∀ expr i,
      collectNumToken expr i =
          .ok (Node.num (atof (numSeq expr i)) ⟨i, numSeqEnd expr i + 1⟩,
               numSeqEnd expr i) ↔
        ((numSeq expr i).count '.' ≤ 1 ∧
         (numSeq expr i).getLast? ≠ some '.' ∧
         ¬(numSeqEnd expr i + 1 < expr.length ∧
           isIdentifierChar (expr.getD (numSeqEnd expr i + 1) ' ') false = true))) ∧
    (evaluate "0.0.1" [] 100).result =
      .error ⟨["number cannot include more than one dot"], ⟨0, 5⟩⟩ ∧
    (evaluate "2." [] 100).result =
      .error ⟨["number cannot end with a dot (correction: `", "2", "`)"], ⟨0, 2⟩⟩ ∧
    (evaluate "123abc" [] 100).result =
      .error ⟨["number cannot include part of identifier (correction: `", "123",
               " ", "a", "...`)"], ⟨0, 4⟩⟩ := by
  have hmulti : ∀ expr i, (numSeq expr i).count '.' > 1 →
      collectNumToken expr i =
        .error ⟨["number cannot include more than one dot"],
                ⟨i, numSeqEnd expr i + 1⟩⟩ := by
    intro expr i h1
    simp only [collectNumToken, collectSequence_num]
    rw [if_pos h1]
  have htrail : ∀ expr i, ¬(numSeq expr i).count '.' > 1 →
      (numSeq expr i).getLast? = some '.' →
      collectNumToken expr i =
        .error ⟨["number cannot end with a dot (correction: `",
                 String.mk (numSeq expr i).dropLast, "`)"],
                ⟨i, numSeqEnd expr i + 1⟩⟩ := by
    intro expr i h1 h2
    simp only [collectNumToken, collectSequence_num]
    rw [if_neg h1, if_pos h2]
  have hfused : ∀ expr i, ¬(numSeq expr i).count '.' > 1 →
      (numSeq expr i).getLast? ≠ some '.' →
      numSeqEnd expr i + 1 < expr.length →
      isIdentifierChar (expr.getD (numSeqEnd expr i + 1) ' ') false = true →
      collectNumToken expr i =
        .error ⟨["number cannot include part of identifier (correction: `",
                 String.mk (numSeq expr i), " ",
                 String.mk [expr.getD (numSeqEnd expr i + 1) ' '], "...`)"],
                ⟨i, numSeqEnd expr i + 2⟩⟩ := by
    intro expr i h1 h2 h3 h4
    have hcond : (decide (numSeqEnd expr i + 1 < expr.length) &&
        isIdentifierChar (expr.getD (numSeqEnd expr i + 1) ' ') false) = true := by
      rw [Bool.and_eq_true, decide_eq_true_eq]
      exact ⟨h3, h4⟩
    simp only [collectNumToken, collectSequence_num]
    rw [if_neg h1, if_neg h2, if_pos hcond]
  have hsucc : ∀ expr i, ¬(numSeq expr i).count '.' > 1 →
      (numSeq expr i).getLast? ≠ some '.' →
      ¬(numSeqEnd expr i + 1 < expr.length ∧
        isIdentifierChar (expr.getD (numSeqEnd expr i + 1) ' ') false = true) →
      collectNumToken expr i =
        .ok (Node.num (atof (numSeq expr i)) ⟨i, numSeqEnd expr i + 1⟩,
             numSeqEnd expr i) := by
    intro expr i h1 h2 h3
    have hcond : ¬((decide (numSeqEnd expr i + 1 < expr.length) &&
        isIdentifierChar (expr.getD (numSeqEnd expr i + 1) ' ') false) = true) := by
      rw [Bool.and_eq_true, decide_eq_true_eq]
      exact h3
    simp only [collectNumToken, collectSequence_num]
    rw [if_neg h1, if_neg h2, if_neg hcond]
  refine ⟨hmulti, htrail, hfused, ?_, ?_, ?_, ?_⟩
  · intro expr i
    constructor
    · intro hok
      refine ⟨?_, ?_, ?_⟩
      · by_contra c1
        rw [hmulti expr i (by omega)] at hok
        exact Except.noConfusion hok
      · by_contra c2
        have c2h := c2
        by_cases hc1 : (numSeq expr i).count '.' > 1
        · rw [hmulti expr i hc1] at hok
          exact Except.noConfusion hok
        · rw [htrail expr i hc1 c2h] at hok
          exact Except.noConfusion hok
      · by_contra c3
        obtain ⟨h3, h4⟩ := c3
        by_cases hc1 : (numSeq expr i).count '.' > 1
        · rw [hmulti expr i hc1] at hok
          exact Except.noConfusion hok
        · by_cases hc2 : (numSeq expr i).getLast? = some '.'
          · rw [htrail expr i hc1 hc2] at hok
            exact Except.noConfusion hok
          · rw [hfused expr i hc1 hc2 h3 h4] at hok
            exact Except.noConfusion hok
    · intro hc
      exact hsucc expr i (by omega) hc.2.1 hc.2.2
  · rw [evaluate_parse_err "0.0.1" [] 100
      ⟨["number cannot include more than one dot"], ⟨0, 5⟩⟩ rfl]
  · rw [evaluate_parse_err "2." [] 100
      ⟨["number cannot end with a dot (correction: `", "2", "`)"], ⟨0, 2⟩⟩ rfl]
  · rw [evaluate_parse_err "123abc" [] 100
      ⟨["number cannot include part of identifier (correction: `", "123", " ", "a",
        "...`)"], ⟨0, 4⟩⟩ rfl]

/-- Witness for C9 at concrete inputs. -/
theorem claim9_number_lexing_witness :
    collectNumToken "0.0.1".data 0 =
      .error ⟨["number cannot include more than one dot"], ⟨0, 5⟩⟩ ∧
    collectNumToken "2.".data 0 =
      .error ⟨["number cannot end with a dot (correction: `", "2", "`)"], ⟨0, 2⟩⟩ ∧
    collectNumToken "123abc".data 0 =
      .error ⟨["number cannot include part of identifier (correction: `", "123",
               " ", "a", "...`)"], ⟨0, 4⟩⟩ :=
  ⟨claim9_number_lexing.1 "0.0.1".data 0 (by decide),
   claim9_number_lexing.2.1 "2.".data 0 (by decide) (by decide),
   claim9_number_lexing.2.2.1 "123abc".data 0 (by decide) (by decide) (by decide)
     (by decide)⟩

/-- The names after `envSet`: unchanged when the name was present,
extended by exactly that name at the end when it was absent. -/
theorem envSet_map_fst (env : Env) (k : String) (v : Node) :
    (envSet env k v).map Prod.fst =
      if k ∈ env.map Prod.fst then env.map Prod.fst
      else env.map Prod.fst ++ [k] := by
  induction env with
  | nil => simp [envSet]
  | cons a rest ih =>
    obtain ⟨ak, av⟩ := a
    by_cases hk : ak = k
    · subst hk
      simp [envSet]
    · by_cases hm : k ∈ rest.map Prod.fst <;>
        simp [envSet, hk, ih, hm, Ne.symm hk]

/-- `envSet` preserves distinctness of the Environment's names. -/
theorem distinctNames_envSet (env : Env) (k : String) (v : Node)
    (h : distinctNames env) : distinctNames (envSet env k v) := by
  unfold distinctNames at h ⊢
  rw [envSet_map_fst]
  by_cases hk : k ∈ env.map Prod.fst
  · simpa [hk] using h
  · rw [if_neg hk]
    exact h.append (List.nodup_singleton k) (by simpa using hk)

/-- Distinctness of the Environment's names is preserved by every
evaluator function, at every fuel. -/
theorem eval_env_nodup :
    ∀ fuel,
      (∀ node env out, distinctNames env →
        distinctNames (evaluateNode fuel node env out).env) ∧
      (∀ name expr pos env out, distinctNames env →
        distinctNames (evaluateAssign fuel name expr pos env out).env) ∧
      (∀ tm op env out, distinctNames env →
        distinctNames (evaluateUna fuel tm op env out).env) ∧
      (∀ l r op env out, distinctNames env →
        distinctNames (evaluateBin fuel l r op env out).env) ∧
      (∀ cname args pos env out, distinctNames env →
        distinctNames (evaluateCall fuel cname args pos env out).env) ∧
      (∀ cname args env out, distinctNames env →
        distinctNames (builtinFloor fuel cname args env out).env) := by
  intro fuel
  induction fuel with
  | zero =>
    refine ⟨?_, ?_, ?_, ?_, ?_, ?_⟩
    · intro node env out h
      simpa [evaluateNode] using h
    · intro name expr pos env out h
      simpa [evaluateAssign] using h
    · intro tm op env out h
      simpa [evaluateUna] using h
    · intro l r op env out h
      simpa [evaluateBin] using h
    · intro cname args pos env out h
      simpa [evaluateCall] using h
    · intro cname args env out h
      simpa [builtinFloor] using h
  | succ fuel ih =>
    obtain ⟨ihN, ihA, ihU, ihB, ihC, ihF⟩ := ih
    refine ⟨?_, ?_, ?_, ?_, ?_, ?_⟩
    · intro node env out h
      cases node <;> simp only [evaluateNode] <;>
        first
        | exact h
        | exact ihA _ _ _ _ _ h
        | exact ihU _ _ _ _ h
        | exact ihB _ _ _ _ _ h
        | exact ihC _ _ _ _ _ h
        | (unfold evaluateIdentifier
           split <;> exact h)
    · intro name expr pos env out h
      simp only [evaluateAssign]
      split
      · exact ihN _ _ _ h
      · exact distinctNames_envSet _ _ _ (ihN _ _ _ h)
    · intro tm op env out h
      simp only [evaluateUna]
      repeat' split
      all_goals exact ihN _ _ _ h
    · intro l r op env out h
      simp only [evaluateBin]
      repeat' split
      all_goals
        first
        | exact ihN _ _ _ h
        | exact ihN _ _ _ (ihN _ _ _ h)
    · intro cname args pos env out h
      simp only [evaluateCall, builtinPrint]
      repeat' split
      all_goals
        first
        | exact h
        | exact ihF _ _ _ _ h
    · intro cname args env out h
      simp only [builtinFloor]
      repeat' split
      all_goals
        first
        | exact h
        | exact ihN _ _ _ h

/-- Distinctness preserved through one evaluate entry-point call. -/
theorem evaluate_env_nodup (source : String) (env : Env) (fuel : Nat)
    (h : distinctNames env) : distinctNames (evaluate source env fuel).env := by
  unfold evaluate
  split
  · exact h
  · exact (eval_env_nodup fuel).1 _ env "" h

/-- C2: across any session of evaluate calls the Environment's names
stay pairwise distinct; `envSet` appends exactly one new pair for an
absent name and overwrites in place (same names, new value) for a
present one; `"x = 5"` then `"x = 6"` leaves exactly one binding,
named `x`, with value `6`. -/
theorem claim2_env_names_unique :
    (∀ sources env fuel, distinctNames env →
      distinctNames (evaluateSeq sources env fuel)) ∧
    evaluateSeq ["x = 5", "x = 6"] [] 100 = [("x", Node.num ⟨6, 1⟩ ⟨4, 5⟩)] ∧
    (∀ env k v, envLookup env k = none → envSet env k v = env ++ [(k, v)]) ∧
    (∀ env k v w, envLookup env k = some w →
      (envSet env k v).map Prod.fst = env.map Prod.fst ∧
      envLookup (envSet env k v) k = some v) := by
  refine ⟨?_, ?_, ?_, ?_⟩
  · intro sources env fuel
    induction sources generalizing env with
    | nil =>
      intro h
      simpa [evaluateSeq] using h
    | cons s rest ih =>
      intro h
      simp only [evaluateSeq, List.foldl]
      exact ih _ (evaluate_env_nodup s env fuel h)
  · have h1 : (evaluate "x = 5" [] 100).env = [("x", Node.num ⟨5, 1⟩ ⟨4, 5⟩)] := by
      rw [evaluate_parse_ok "x = 5" [] 100 astX5 rfl]; rfl
    have h2 : (evaluate "x = 6" [("x", Node.num ⟨5, 1⟩ ⟨4, 5⟩)] 100).env =
        [("x", Node.num ⟨6, 1⟩ ⟨4, 5⟩)] := by
      rw [evaluate_parse_ok "x = 6" [("x", Node.num ⟨5, 1⟩ ⟨4, 5⟩)] 100 astX6 rfl]; rfl
    show (evaluate "x = 6" (evaluate "x = 5" [] 100).env 100).env = _
    rw [h1, h2]
  · intro env k v
    induction env with
    | nil =>
      intro _
      rfl
    | cons a rest ih =>
      obtain ⟨ak, av⟩ := a
      intro h
      by_cases hk : ak = k
      · simp [envLookup, hk] at h
      · simp only [envLookup, if_neg hk] at h
        simp [envSet, hk, ih h]
  · intro env k v w
    induction env with
    | nil =>
      intro h
      simp [envLookup] at h
    | cons a rest ih =>
      obtain ⟨ak, av⟩ := a
      intro h
      by_cases hk : ak = k
      · subst hk
        simp [envSet, envLookup]
      · simp only [envLookup, if_neg hk] at h
        obtain ⟨ih1, ih2⟩ := ih h
        constructor
        · simp [envSet, hk, ih1]
        · simp [envSet, envLookup, hk, ih2]

/-- Witness for C2 at concrete inputs. -/
theorem claim2_env_names_unique_witness :
    distinctNames (evaluateSeq ["x = 5"] [] 20) ∧
    envSet [] "a" (Node.noneV ⟨0, 0⟩) = [] ++ [("a", Node.noneV ⟨0, 0⟩)] ∧
    envLookup (envSet [("a", Node.noneV ⟨0, 0⟩)] "a" (Node.noneV ⟨1, 1⟩)) "a" =
      some (Node.noneV ⟨1, 1⟩) :=
  ⟨claim2_env_names_unique.1 ["x = 5"] [] 20 (by simp [distinctNames]),
   claim2_env_names_unique.2.2.1 [] "a" (Node.noneV ⟨0, 0⟩) rfl,
   (claim2_env_names_unique.2.2.2 [("a", Node.noneV ⟨0, 0⟩)] "a" (Node.noneV ⟨1, 1⟩)
     (Node.noneV ⟨0, 0⟩) rfl).2⟩

/-- Evaluating anything that contains no `Assign` node leaves the
Environment exactly as it was — whether the run returns a value or
raises an error — at every fuel, for every evaluator function. -/
theorem eval_env_frame :
    ∀ fuel,
      (∀ node env out, noAssign node = true →
        (evaluateNode fuel node env out).env = env) ∧
      (∀ tm op env out, noAssign tm = true →
        (evaluateUna fuel tm op env out).env = env) ∧
      (∀ l r op env out, noAssign l = true → noAssign r = true →
        (evaluateBin fuel l r op env out).env = env) ∧
      (∀ cname args pos env out, noAssignList args = true →
        (evaluateCall fuel cname args pos env out).env = env) ∧
      (∀ cname args env out, noAssignList args = true →
        (builtinFloor fuel cname args env out).env = env) := by
  intro fuel
  induction fuel with
  | zero =>
    refine ⟨?_, ?_, ?_, ?_, ?_⟩
    · intro node env out _
      simp [evaluateNode]
    · intro tm op env out _
      simp [evaluateUna]
    · intro l r op env out _ _
      simp [evaluateBin]
    · intro cname args pos env out _
      simp [evaluateCall]
    · intro cname args env out _
      simp [builtinFloor]
  | succ fuel ih =>
    obtain ⟨ihN, ihU, ihB, ihC, ihF⟩ := ih
    refine ⟨?_, ?_, ?_, ?_, ?_⟩
    · intro node env out h
      cases node with
      | num v p => simp [evaluateNode]
      | str s p => simp [evaluateNode]
      | noneV p => simp [evaluateNode]
      | bin l r op pos =>
        simp only [noAssign, Bool.and_eq_true] at h
        simpa [evaluateNode] using ihB l r op env out h.1.1 h.1.2
      | una t op pos =>
        simp only [noAssign, Bool.and_eq_true] at h
        simpa [evaluateNode] using ihU t op env out h.1
      | identifier s p =>
        simp only [evaluateNode]
        unfold evaluateIdentifier
        split <;> rfl
      | assign name expr pos =>
        simp [noAssign] at h
      | call cname args pos =>
        simp only [noAssign, Bool.and_eq_true] at h
        simpa [evaluateNode] using ihC cname args pos env out h.2
      | punct k s p => simp [evaluateNode]
      | eofT p => simp [evaluateNode]
      | bad p => simp [evaluateNode]
    · intro tm op env out h
      simp only [evaluateUna]
      repeat' split
      all_goals exact ihN tm env out h
    · intro l r op env out hl hr
      simp only [evaluateBin]
      repeat' split
      all_goals
        first
        | exact ihN l env out hl
        | exact (ihN r _ _ hr).trans (ihN l env out hl)
    · intro cname args pos env out h
      simp only [evaluateCall, builtinPrint]
      repeat' split
      all_goals
        first
        | rfl
        | exact ihF _ _ _ _ h
    · intro cname args env out h
      cases args with
      | nil => simp [builtinFloor, expectArgsCount]
      | cons a rest =>
        cases rest with
        | nil =>
          have ha : noAssign a = true := by
            simp only [noAssignList, Bool.and_eq_true] at h
            exact h.1
          simp only [builtinFloor, expectArgsCount]
          repeat' split
          all_goals first | rfl | exact ihN _ _ _ ha
        | cons b rest2 =>
          simp only [builtinFloor, expectArgsCount, List.length_cons]
          rw [if_pos (by omega)]

/-- C8: for every expression containing no `Assign` node, evaluation —
whether it produces a value or raises an error — leaves the
Environment exactly unchanged; a parse error also leaves it
unchanged. -/
theorem claim8_no_assign_frame :
    (∀ fuel node env out, noAssign node = true →
      (evaluateNode fuel node env out).env = env) ∧
    (∀ source env fuel node, parse source fuel = .ok node → noAssign node = true →
      (evaluate source env fuel).env = env) ∧
    (∀ source env fuel e, parse source fuel = .error e →
      (evaluate source env fuel).env = env) := by
  refine ⟨?_, ?_, ?_⟩
  · intro fuel node env out h
    exact (eval_env_frame fuel).1 node env out h
  · intro source env fuel node hp h
    rw [evaluate_parse_ok source env fuel node hp]
    exact (eval_env_frame fuel).1 node env "" h
  · intro source env fuel e hp
    rw [evaluate_parse_err source env fuel e hp]

/-- Witness for C8 at a concrete input. -/
theorem claim8_no_assign_frame_witness :
    (evaluateNode 5 (Node.num ⟨1, 1⟩ ⟨0, 1⟩) [("a", Node.noneV ⟨0, 0⟩)] "").env =
      [("a", Node.noneV ⟨0, 0⟩)] :=
  claim8_no_assign_frame.1 5 (Node.num ⟨1, 1⟩ ⟨0, 1⟩) [("a", Node.noneV ⟨0, 0⟩)] ""
    (by simp [noAssign])

end NScript
